import Mathlib

/-!
Verification of the image-caption HTTP service (`app.py`).

The service is a Flask application with two routes: `GET /` (health check)
and `POST /caption` (the captioning endpoint).  The `/caption` handler
validates the multipart upload, saves it under `uploads/` with a
werkzeug-sanitized filename, and runs a vision-to-text pipeline
(open image, feature extraction, `model.generate` with a greedy preset,
decode) with a single sampling-preset fallback wrapped in try/except.

The embedding below models the handler as a pure function of an
environment `Env` that supplies the outcomes of the external library
calls (PIL, the feature extractor, `model.generate`, the tokenizer,
`file.save`); each fallible call returns `Except String α`, the `String`
being the Python exception text `str(e)`.  Alongside the HTTP response,
every function returns the ordered list of side effects (`Effect`) it
performed, so that frame properties (what is saved, what is loaded,
batch sizes) can be stated.
-/

set_option autoImplicit false

namespace CaptionApp

/-- A generation-parameter preset: the keyword arguments passed to
`model.generate` in `app.py`.  A field is `none` when the corresponding
keyword is not passed.  The decimal literal `0.95` for `top_p` is
embedded as the numerator/denominator pair `(95, 100)`; the handler only
passes it through, never computes with it. -/
structure GenParams where
  max_length : Option Nat := none
  num_beams : Option Nat := none
  do_sample : Option Bool := none
  early_stopping : Option Bool := none
  top_k : Option Nat := none
  top_p : Option (Nat × Nat) := none
  num_return_sequences : Option Nat := none
deriving DecidableEq, Repr

/-- The primary preset (app.py lines 134-140): greedy search. -/
def primaryParams : GenParams :=
  { max_length := some 16, num_beams := some 1,
    do_sample := some false, early_stopping := some false }

/-- The fallback preset (app.py lines 158-165): sampling. -/
def fallbackParams : GenParams :=
  { max_length := some 16, do_sample := some true,
    top_k := some 50, top_p := some (95, 100),
    num_return_sequences := some 1 }

/-- A PIL image: only its `mode` is inspected by the handler; `ident`
keeps distinct images distinct. -/
structure PyImage where
  mode : String
  ident : Nat
deriving DecidableEq, Repr

/-- An uploaded file part, as found in `request.files`. -/
structure FilePart where
  filename : String
  content : String
deriving DecidableEq, Repr

/-- An HTTP request to `/caption`: the multipart file parts, keyed by
form-field name. -/
structure Request where
  files : List (String × FilePart)
deriving DecidableEq, Repr

/-- A Flask response: status code plus the JSON object body, as a list
of key/value string pairs. -/
structure Resp where
  status : Nat
  body : List (String × String)
deriving DecidableEq, Repr

/-- The observable side effects of handling a request: filesystem writes
and deletions, and the external library calls.  `extractCall n` records
an invocation of the feature extractor on a batch of `n` images;
`genCall p` an invocation of `model.generate` with preset `p`;
`loadCall s` an invocation of `from_pretrained` for component `s`. -/
inductive Effect where
  | saveFile (path : String)
  | deleteFile (path : String)
  | openImage (path : String)
  | extractCall (numImages : Nat)
  | genCall (p : GenParams)
  | decodeCall
  | loadCall (component : String)
deriving DecidableEq, Repr

/-- The environment: outcome of every external call the handler makes.
`modelLoaded` is whether the process-wide `model` singleton is not
`None`.  Tensors are represented by opaque `Nat` identifiers; generated
`output_ids` by a list of token-id sequences (one per returned
sequence). -/
structure Env where
  modelLoaded : Bool
  save : String → Except String Unit
  openImage : String → Except String PyImage
  convertRGB : PyImage → PyImage
  extract : List PyImage → Except String Nat
  toDevice : Nat → Except String Nat
  generate : Nat → GenParams → Except String (List (List Nat))
  batchDecode : List (List Nat) → Except String (List String)

/-- `UPLOAD_FOLDER = 'uploads'` (app.py line 51). -/
def UPLOAD_FOLDER : String := "uploads"

/-- `app.config['MAX_CONTENT_LENGTH'] = 16 * 1024 * 1024` (app.py line 55). -/
def MAX_CONTENT_LENGTH : Nat := 16 * 1024 * 1024

/-- Python whitespace for `str.split()` / `str.strip()`, restricted to
ASCII (the only characters that survive werkzeug's ASCII encoding
step). -/
def pyIsSpace (c : Char) : Bool :=
  c = ' ' || c = '\t' || c = '\n' || c = '\r' || c = '\x0b' || c = '\x0c'

/-- Strip characters satisfying `p` from both ends of a list:
Python's `str.strip` on the character class `p`. -/
def stripChars (p : Char → Bool) (l : List Char) : List Char :=
  ((l.dropWhile p).reverse.dropWhile p).reverse

/-- Python `str.strip()` (no argument): strip whitespace from both ends. -/
def pyStrip (s : String) : String :=
  String.mk (stripChars pyIsSpace s.data)

/-- `str.encode('ascii', 'ignore')`: drop non-ASCII characters.
(The preceding NFKD normalization of werkzeug's `secure_filename` is not
modelled; it only changes which ASCII characters survive this filter,
and every property proved below holds for all intermediate strings.) -/
def asciiIgnore (l : List Char) : List Char :=
  l.filter (fun c => c.toNat < 128)

/-- `filename.replace(os.sep, ' ')` with POSIX `os.sep = '/'`
(`os.path.altsep` is `None` on POSIX). -/
def replaceSep (l : List Char) : List Char :=
  l.map (fun c => if c = '/' then ' ' else c)

/-- Python `str.split()` (split on runs of whitespace, dropping empty
pieces), accumulating the current word in reverse. -/
def pySplitAux : List Char → List Char → List (List Char)
  | [], cur => if cur.isEmpty then [] else [cur.reverse]
  | c :: rest, cur =>
    if pyIsSpace c then
      if cur.isEmpty then pySplitAux rest []
      else cur.reverse :: pySplitAux rest []
    else pySplitAux rest (c :: cur)

/-- Python `str.split()`. -/
def pySplit (l : List Char) : List (List Char) :=
  pySplitAux l []

/-- The character class kept by werkzeug's
`_filename_ascii_strip_re = re.compile(r"[^A-Za-z0-9_.-]")`. -/
def isAllowedFnChar (c : Char) : Bool :=
  c.isAlphanum || c = '_' || c = '.' || c = '-'

/-- werkzeug's `secure_filename` (POSIX, `os.name != 'nt'`):
ASCII-encode ignoring errors, replace `os.sep` by spaces, split on
whitespace and rejoin with underscores, delete every character outside
`[A-Za-z0-9_.-]`, and strip leading/trailing `.` and `_`. -/
def secure_filename (s : String) : String :=
  let cs := replaceSep (asciiIgnore s.data)
  let joined := List.intercalate ['_'] (pySplit cs)
  let cleaned := joined.filter isAllowedFnChar
  String.mk (stripChars (fun c => c = '.' || c = '_') cleaned)

/-- POSIX `os.path.join` for two components, as used at app.py line 103. -/
def os_path_join (a b : String) : String :=
  if b.data.head? = some '/' then b
  else if a.data.isEmpty || a.data.getLast? = some '/' then a ++ b
  else a ++ "/" ++ b

/-- The message used for a 500 body built at app.py line 174:
`f'Error generating caption: {str(e)}'` where `e` is the exception of
the primary generation attempt. -/
def genErrorMsg (e : String) : String :=
  "Error generating caption: " ++ e

/-- The fallback block (app.py lines 155-174): the inner `try` that
retries generation with the sampling preset after the primary attempt
raised `e`.  `pv` is the value bound to `pixel_values` at that point:
`none` when the primary exception occurred before `pixel_values` was
assigned, in which case the fallback body raises `NameError` at once
(no generate call happens) and the handler returns the 500 built from
the primary exception text. -/
def fallbackBlock (env : Env) (pv : Option Nat) (e : String) : Resp × List Effect :=
  match pv with
  | none => (⟨500, [("error", genErrorMsg e)]⟩, [])
  | some t =>
    match env.generate t fallbackParams with
    | .error _ => (⟨500, [("error", genErrorMsg e)]⟩, [Effect.genCall fallbackParams])
    | .ok ids =>
      match env.batchDecode ids with
      | .error _ =>
        (⟨500, [("error", genErrorMsg e)]⟩,
         [Effect.genCall fallbackParams, Effect.decodeCall])
      | .ok preds =>
        match preds.head? with
        | none =>
          (⟨500, [("error", genErrorMsg e)]⟩,
           [Effect.genCall fallbackParams, Effect.decodeCall])
        | some p =>
          (⟨200, [("caption", pyStrip p)]⟩,
           [Effect.genCall fallbackParams, Effect.decodeCall])

/-- The inference pipeline (app.py lines 112-174): `Image.open`, RGBA
conversion, feature extraction on the singleton list `[image]`, move to
device, primary `model.generate`, `tokenizer.batch_decode`, `preds[0]`
(an `IndexError` when `preds` is empty), `.strip()`.  Any exception
falls into `fallbackBlock` with the current `pixel_values` binding. -/
def innerPipeline (env : Env) (path : String) : Resp × List Effect :=
  match env.openImage path with
  | .error e =>
    ((fallbackBlock env none e).1,
     Effect.openImage path :: (fallbackBlock env none e).2)
  | .ok img0 =>
    match env.extract [if img0.mode = "RGBA" then env.convertRGB img0 else img0] with
    | .error e =>
      ((fallbackBlock env none e).1,
       Effect.openImage path :: Effect.extractCall 1 :: (fallbackBlock env none e).2)
    | .ok pv0 =>
      match env.toDevice pv0 with
      | .error e =>
        ((fallbackBlock env (some pv0) e).1,
         Effect.openImage path :: Effect.extractCall 1 :: (fallbackBlock env (some pv0) e).2)
      | .ok pv =>
        match env.generate pv primaryParams with
        | .error e =>
          ((fallbackBlock env (some pv) e).1,
           Effect.openImage path :: Effect.extractCall 1 :: Effect.genCall primaryParams ::
             (fallbackBlock env (some pv) e).2)
        | .ok ids =>
          match env.batchDecode ids with
          | .error e =>
            ((fallbackBlock env (some pv) e).1,
             Effect.openImage path :: Effect.extractCall 1 :: Effect.genCall primaryParams ::
               Effect.decodeCall :: (fallbackBlock env (some pv) e).2)
          | .ok preds =>
            match preds.head? with
            | none =>
              ((fallbackBlock env (some pv) "list index out of range").1,
               Effect.openImage path :: Effect.extractCall 1 :: Effect.genCall primaryParams ::
                 Effect.decodeCall :: (fallbackBlock env (some pv) "list index out of range").2)
            | some p =>
              (⟨200, [("caption", pyStrip p)]⟩,
               [Effect.openImage path, Effect.extractCall 1, Effect.genCall primaryParams,
                Effect.decodeCall])

/-- The `/caption` POST handler `caption_image` (app.py lines 82-178).
Returns the response and the ordered side effects: the 400 validations,
`secure_filename` + `os.path.join` + `file.save` (a save failure is
caught by the outer try/except and becomes a 500 with `str(e)`), the
model-is-None placeholder, then `innerPipeline`.  The Python
`if file:` truthiness test is `bool(file.filename)`, which is true on
every path that reaches it (the empty-filename case returned earlier),
so the implicit fall-through `return None` is unreachable and not
modelled. -/
def caption_image (env : Env) (req : Request) : Resp × List Effect :=
  match List.lookup "image" req.files with
  | none => (⟨400, [("error", "No image part in the request")]⟩, [])
  | some file =>
    if file.filename = "" then
      (⟨400, [("error", "No selected file")]⟩, [])
    else
      match env.save (os_path_join UPLOAD_FOLDER (secure_filename file.filename)) with
      | .error e => (⟨500, [("error", e)]⟩, [])
      | .ok _ =>
        if env.modelLoaded then
          ((innerPipeline env (os_path_join UPLOAD_FOLDER (secure_filename file.filename))).1,
           Effect.saveFile (os_path_join UPLOAD_FOLDER (secure_filename file.filename)) ::
             (innerPipeline env (os_path_join UPLOAD_FOLDER (secure_filename file.filename))).2)
        else
          (⟨200, [("caption", "Image captioning model not available. Please check server logs.")]⟩,
           [Effect.saveFile (os_path_join UPLOAD_FOLDER (secure_filename file.filename))])

/-- The `GET /` handler `index` (app.py lines 77-80). -/
def index : Resp :=
  ⟨200, [("status", "Server is running")]⟩

/-- A registered Flask route: URL rule, methods, view-function name. -/
structure Route where
  path : String
  methods : List String
  handlerName : String
deriving DecidableEq, Repr

/-- The routes registered on the application: the two `@app.route`
decorators in app.py (lines 77 and 82). -/
def registeredRoutes : List Route :=
  [⟨"/", ["GET"], "index"⟩, ⟨"/caption", ["POST"], "caption_image"⟩]

/-- Modelled from Flask/Werkzeug documented behavior: a request whose
body is strictly larger than `MAX_CONTENT_LENGTH` is rejected with
413 Request Entity Too Large before the view function runs. -/
def contentLengthRejected (n : Nat) : Bool :=
  MAX_CONTENT_LENGTH < n

/-- Modelled from Flask/Werkzeug documented behavior: dispatch of a
POST to `/caption` with body size `n`: the framework's size gate, then
the handler. -/
def dispatchCaption (n : Nat) (env : Env) (req : Request) : Resp × List Effect :=
  if contentLengthRejected n then
    (⟨413, [("error", "Request Entity Too Large")]⟩, [])
  else caption_image env req

/-- Startup environment: outcomes of the three `from_pretrained` calls
and of `model.to(device)` (app.py lines 63-75), plus whether the
library imports at lines 33-46 succeeded. -/
structure LoadEnv where
  models_available : Bool
  loadModelRes : Except String Unit
  loadFeRes : Except String Unit
  loadTokRes : Except String Unit
  toDeviceRes : Except String Unit

/-- Module-level model loading (app.py lines 57-75): run once at import
time, before the server accepts requests.  Returns whether `model` is
not `None` afterwards, and the load effects performed.  Any exception
sets `model = None`. -/
def startup (le : LoadEnv) : Bool × List Effect :=
  if le.models_available then
    match le.loadModelRes with
    | .error _ => (false, [Effect.loadCall "model"])
    | .ok _ =>
      match le.loadFeRes with
      | .error _ => (false, [Effect.loadCall "model", Effect.loadCall "feature_extractor"])
      | .ok _ =>
        match le.loadTokRes with
        | .error _ =>
          (false, [Effect.loadCall "model", Effect.loadCall "feature_extractor",
                   Effect.loadCall "tokenizer"])
        | .ok _ =>
          match le.toDeviceRes with
          | .error _ =>
            (false, [Effect.loadCall "model", Effect.loadCall "feature_extractor",
                     Effect.loadCall "tokenizer"])
          | .ok _ =>
            (true, [Effect.loadCall "model", Effect.loadCall "feature_extractor",
                    Effect.loadCall "tokenizer"])
  else (false, [])

/-- Classification of effects as emitted by request handling: no model
load, no file deletion, no save (inside the pipeline), and every
feature-extraction call on a batch of exactly one image. -/
def traceOk : Effect → Bool
  | .loadCall _ => false
  | .deleteFile _ => false
  | .saveFile _ => false
  | .extractCall n => n == 1
  | _ => true

/-- `true` on `loadCall` effects only. -/
def isLoadCall : Effect → Bool
  | .loadCall _ => true
  | _ => false

/-- `true` unless the effect is a feature-extraction call on a batch of
size other than one. -/
def extractBatchOne : Effect → Bool
  | .extractCall n => n == 1
  | _ => true

/-- Replay one effect against a set of files on disk (represented as a
duplicate-free list of paths). -/
def applyFx (fs : List String) : Effect → List String
  | .saveFile p => if p ∈ fs then fs else fs ++ [p]
  | .deleteFile p => fs.erase p
  | _ => fs

/-- The files remaining on disk after a trace of effects, starting from
an empty upload folder. -/
def remainingFiles (es : List Effect) : List String :=
  es.foldl applyFx []

end CaptionApp

namespace CaptionApp

theorem dropWhile_head_false (p : Char → Bool) :
    ∀ (l : List Char) (a : Char) (t : List Char), l.dropWhile p = a :: t → p a = false := by
  intro l
  induction l with
  | nil => intro a t h; simp [List.dropWhile] at h
  | cons x xs ih =>
    intro a t h
    by_cases hx : p x
    · rw [List.dropWhile_cons_of_pos hx] at h
      exact ih a t h
    · rw [List.dropWhile_cons_of_neg hx] at h
      cases h
      simpa using hx

theorem dropWhile_decomp (p : Char → Bool) :
    ∀ l : List Char, ∃ s, l = s ++ l.dropWhile p := by
  intro l
  induction l with
  | nil => exact ⟨[], rfl⟩
  | cons x xs ih =>
    by_cases hx : p x
    · obtain ⟨s, hs⟩ := ih
      exact ⟨x :: s, by rw [List.dropWhile_cons_of_pos hx]; simpa using hs⟩
    · exact ⟨[], by rw [List.dropWhile_cons_of_neg hx]; rfl⟩

theorem mem_of_mem_dropWhileChars {p : Char → Bool} {l : List Char} {c : Char}
    (h : c ∈ l.dropWhile p) : c ∈ l := by
  obtain ⟨s, hs⟩ := dropWhile_decomp p l
  rw [hs]
  exact List.mem_append_right s h

theorem mem_of_mem_stripChars {p : Char → Bool} {l : List Char} {c : Char}
    (h : c ∈ stripChars p l) : c ∈ l := by
  unfold stripChars at h
  rw [List.mem_reverse] at h
  have h1 := mem_of_mem_dropWhileChars h
  rw [List.mem_reverse] at h1
  exact mem_of_mem_dropWhileChars h1

theorem stripChars_head {p : Char → Bool} {l : List Char} {a : Char}
    (h : (stripChars p l).head? = some a) : p a = false := by
  unfold stripChars at h
  obtain ⟨s, hs⟩ := dropWhile_decomp p ((l.dropWhile p).reverse)
  have hpre : l.dropWhile p =
      ((l.dropWhile p).reverse.dropWhile p).reverse ++ s.reverse := by
    have := congrArg List.reverse hs
    rwa [List.reverse_reverse, List.reverse_append] at this
  cases hr : ((l.dropWhile p).reverse.dropWhile p).reverse with
  | nil => rw [hr] at h; simp at h
  | cons b t =>
    rw [hr] at h
    simp at h
    rw [hr] at hpre
    exact dropWhile_head_false p l a (t ++ s.reverse) (by rw [hpre, h]; rfl)

theorem mem_secure_filename_allowed {name : String} {c : Char}
    (h : c ∈ (secure_filename name).data) : isAllowedFnChar c = true := by
  unfold secure_filename at h
  simp only at h
  have h1 := mem_of_mem_stripChars h
  exact (List.mem_filter.mp h1).2

/-- C10: the upload is saved at `os.path.join('uploads', secure_filename(name))`;
the sanitized filename contains only characters in `[A-Za-z0-9_.-]` (in
particular no `/`), does not begin with `.` (so it is neither `..` nor a
hidden parent-directory reference), and is not absolute, so the join is
`"uploads/" ++ fn` and the saved path stays inside the upload folder. -/
theorem upload_path_safe (name : String) :
    (∀ c ∈ (secure_filename name).data, isAllowedFnChar c = true) ∧
    '/' ∉ (secure_filename name).data ∧
    (secure_filename name).data.head? ≠ some '.' ∧
    secure_filename name ≠ ".." ∧
    os_path_join UPLOAD_FOLDER (secure_filename name) =
      "uploads/" ++ secure_filename name := by
  have hallowed : ∀ c ∈ (secure_filename name).data, isAllowedFnChar c = true :=
    fun c hc => mem_secure_filename_allowed hc
  have hslash : '/' ∉ (secure_filename name).data := by
    intro hmem
    have := hallowed '/' hmem
    simp [isAllowedFnChar] at this
  have hhead : (secure_filename name).data.head? ≠ some '.' := by
    intro hd
    have : ('.' = '.' || '.' = '_') = false := by
      have : (secure_filename name).data = stripChars (fun c => c = '.' || c = '_')
          ((List.intercalate ['_'] (pySplit (replaceSep (asciiIgnore name.data)))).filter
            isAllowedFnChar) := rfl
      exact stripChars_head (by rw [← this]; exact hd)
    simp at this
  refine ⟨hallowed, hslash, hhead, ?_, ?_⟩
  · intro hdots
    apply hhead
    rw [hdots]
    rfl
  · unfold os_path_join
    have hne : (secure_filename name).data.head? ≠ some '/' := by
      intro hd
      cases hmem : (secure_filename name).data with
      | nil => rw [hmem] at hd; simp at hd
      | cons b t =>
        rw [hmem] at hd
        simp at hd
        apply hslash
        rw [hmem, hd]
        exact List.mem_cons_self _ _
    rw [if_neg hne, if_neg (by decide)]
    have : (UPLOAD_FOLDER ++ "/" : String) = "uploads/" := rfl
    rw [← this]

end CaptionApp

namespace CaptionApp

/-- C2: for a POST to `/caption` with a non-empty-named file under form
field `image`, when the model is loaded and the save, open, feature
extraction, device move, primary generation and decode all succeed
(with `preds[0]` defined), the response is HTTP 200 with a JSON body
whose `caption` field is `preds[0].strip()`, the stripped decoding of
the generated token ids. -/
theorem caption_success (env : Env) (req : Request) (f : FilePart)
    (img : PyImage) (pv0 pv : Nat) (ids : List (List Nat)) (preds : List String) (p : String)
    (hf : List.lookup "image" req.files = some f)
    (hn : f.filename ≠ "")
    (hsave : env.save (os_path_join UPLOAD_FOLDER (secure_filename f.filename)) = .ok ())
    (hm : env.modelLoaded = true)
    (hopen : env.openImage (os_path_join UPLOAD_FOLDER (secure_filename f.filename)) = .ok img)
    (hext : env.extract [if img.mode = "RGBA" then env.convertRGB img else img] = .ok pv0)
    (hdev : env.toDevice pv0 = .ok pv)
    (hgen : env.generate pv primaryParams = .ok ids)
    (hdec : env.batchDecode ids = .ok preds)
    (hp : preds.head? = some p) :
    (caption_image env req).1 = ⟨200, [("caption", pyStrip p)]⟩ := by
  simp [caption_image, innerPipeline, hf, hn, hsave, hm, hopen, hext, hdev, hgen, hdec, hp]

/-- C3: a POST to `/caption` with no `image` file part yields
400/`No image part in the request`; one whose `image` part has an empty
filename yields 400/`No selected file`; in both cases the effect trace
is empty, so no file is saved and the pipeline is never invoked. -/
theorem caption_reject (env : Env) (req : Request) :
    (List.lookup "image" req.files = none →
      caption_image env req = (⟨400, [("error", "No image part in the request")]⟩, [])) ∧
    (∀ f, List.lookup "image" req.files = some f → f.filename = "" →
      caption_image env req = (⟨400, [("error", "No selected file")]⟩, [])) := by
  constructor
  · intro h
    simp [caption_image, h]
  · intro f hf he
    simp [caption_image, hf, he]

/-- C8: when the model failed to load (`model is None`), a valid POST to
`/caption` whose save succeeds returns HTTP 200 (not an error status)
with the fixed placeholder caption, and the trace shows the file was
saved before the response was produced. -/
theorem model_unavailable (env : Env) (req : Request) (f : FilePart)
    (hf : List.lookup "image" req.files = some f)
    (hn : f.filename ≠ "")
    (hm : env.modelLoaded = false)
    (hsave : env.save (os_path_join UPLOAD_FOLDER (secure_filename f.filename)) = .ok ()) :
    caption_image env req =
      (⟨200, [("caption", "Image captioning model not available. Please check server logs.")]⟩,
       [Effect.saveFile (os_path_join UPLOAD_FOLDER (secure_filename f.filename))]) := by
  simp [caption_image, hf, hn, hsave, hm]

/-- A concrete environment in which every external call succeeds. -/
def envOkAll : Env where
  modelLoaded := true
  save := fun _ => .ok ()
  openImage := fun _ => .ok ⟨"RGB", 0⟩
  convertRGB := fun i => ⟨"RGB", i.ident⟩
  extract := fun _ => .ok 1
  toDevice := fun n => .ok n
  generate := fun _ _ => .ok [[5, 6]]
  batchDecode := fun _ => .ok ["a cat  "]

/-- The same environment with the model singleton unavailable. -/
def envNoModel : Env :=
  { envOkAll with modelLoaded := false }

/-- A request uploading `cat.jpg` under form field `image`. -/
def reqCat : Request :=
  ⟨[("image", ⟨"cat.jpg", "bytes"⟩)]⟩

/-- A request with no `image` file part. -/
def reqNoPart : Request :=
  ⟨[]⟩

/-- A request whose `image` part has an empty filename. -/
def reqEmptyName : Request :=
  ⟨[("image", ⟨"", "bytes"⟩)]⟩

/-- Witness for `caption_success`: on `envOkAll` and `reqCat` the
response is 200 with the stripped caption. -/
theorem caption_success_witness :
    (caption_image envOkAll reqCat).1 = ⟨200, [("caption", "a cat")]⟩ := by
  have h := caption_success envOkAll reqCat ⟨"cat.jpg", "bytes"⟩ ⟨"RGB", 0⟩ 1 1 [[5, 6]]
    ["a cat  "] "a cat  " rfl (by decide) rfl rfl rfl rfl rfl rfl rfl rfl
  rw [h]
  rfl

/-- Witness for `caption_reject`: the two 400 branches at concrete
requests. -/
theorem caption_reject_witness :
    caption_image envOkAll reqNoPart = (⟨400, [("error", "No image part in the request")]⟩, []) ∧
    caption_image envOkAll reqEmptyName = (⟨400, [("error", "No selected file")]⟩, []) :=
  ⟨(caption_reject envOkAll reqNoPart).1 rfl,
   (caption_reject envOkAll reqEmptyName).2 ⟨"", "bytes"⟩ rfl rfl⟩

/-- Witness for `model_unavailable` at `envNoModel` and `reqCat`. -/
theorem model_unavailable_witness :
    caption_image envNoModel reqCat =
      (⟨200, [("caption", "Image captioning model not available. Please check server logs.")]⟩,
       [Effect.saveFile "uploads/cat.jpg"]) := by
  have h := model_unavailable envNoModel reqCat ⟨"cat.jpg", "bytes"⟩ rfl (by decide) rfl rfl
  rw [h]
  rfl

/-- Witness for `upload_path_safe` at the path-traversal attempt
`../../etc/passwd`: the sanitized name keeps no separator and the path
stays inside `uploads/`. -/
theorem upload_path_safe_witness :
    '/' ∉ (secure_filename "../../etc/passwd").data ∧
    os_path_join UPLOAD_FOLDER (secure_filename "../../etc/passwd") = "uploads/etc_passwd" := by
  refine ⟨(upload_path_safe "../../etc/passwd").2.1, ?_⟩
  rw [(upload_path_safe "../../etc/passwd").2.2.2.2]
  rfl

end CaptionApp

namespace CaptionApp

theorem fallbackBlock_trace_ok (env : Env) (pv : Option Nat) (e : String) :
    ∀ fx ∈ (fallbackBlock env pv e).2, traceOk fx = true := by
  cases pv with
  | none => simp [fallbackBlock]
  | some t =>
    cases hg : env.generate t fallbackParams with
    | error e2 => simp [fallbackBlock, hg, traceOk]
    | ok ids =>
      cases hd : env.batchDecode ids with
      | error e2 => simp [fallbackBlock, hg, hd, traceOk]
      | ok preds =>
        cases hh : preds.head? with
        | none => simp [fallbackBlock, hg, hd, hh, traceOk]
        | some p => simp [fallbackBlock, hg, hd, hh, traceOk]

theorem innerPipeline_trace_ok (env : Env) (path : String) :
    ∀ fx ∈ (innerPipeline env path).2, traceOk fx = true := by
  intro fx hfx
  cases ho : env.openImage path with
  | error e =>
    simp only [innerPipeline, ho] at hfx
    rcases List.mem_cons.mp hfx with rfl | hfx
    · rfl
    · exact fallbackBlock_trace_ok env none e fx hfx
  | ok img0 =>
    cases he : env.extract [if img0.mode = "RGBA" then env.convertRGB img0 else img0] with
    | error e =>
      simp only [innerPipeline, ho, he] at hfx
      rcases List.mem_cons.mp hfx with rfl | hfx
      · rfl
      rcases List.mem_cons.mp hfx with rfl | hfx
      · rfl
      · exact fallbackBlock_trace_ok env none e fx hfx
    | ok pv0 =>
      cases hd : env.toDevice pv0 with
      | error e =>
        simp only [innerPipeline, ho, he, hd] at hfx
        rcases List.mem_cons.mp hfx with rfl | hfx
        · rfl
        rcases List.mem_cons.mp hfx with rfl | hfx
        · rfl
        · exact fallbackBlock_trace_ok env (some pv0) e fx hfx
      | ok pv =>
        cases hg : env.generate pv primaryParams with
        | error e =>
          simp only [innerPipeline, ho, he, hd, hg] at hfx
          rcases List.mem_cons.mp hfx with rfl | hfx
          · rfl
          rcases List.mem_cons.mp hfx with rfl | hfx
          · rfl
          rcases List.mem_cons.mp hfx with rfl | hfx
          · rfl
          · exact fallbackBlock_trace_ok env (some pv) e fx hfx
        | ok ids =>
          cases hdec : env.batchDecode ids with
          | error e =>
            simp only [innerPipeline, ho, he, hd, hg, hdec] at hfx
            rcases List.mem_cons.mp hfx with rfl | hfx
            · rfl
            rcases List.mem_cons.mp hfx with rfl | hfx
            · rfl
            rcases List.mem_cons.mp hfx with rfl | hfx
            · rfl
            rcases List.mem_cons.mp hfx with rfl | hfx
            · rfl
            · exact fallbackBlock_trace_ok env (some pv) e fx hfx
          | ok preds =>
            cases hh : preds.head? with
            | none =>
              simp only [innerPipeline, ho, he, hd, hg, hdec, hh] at hfx
              rcases List.mem_cons.mp hfx with rfl | hfx
              · rfl
              rcases List.mem_cons.mp hfx with rfl | hfx
              · rfl
              rcases List.mem_cons.mp hfx with rfl | hfx
              · rfl
              rcases List.mem_cons.mp hfx with rfl | hfx
              · rfl
              · exact fallbackBlock_trace_ok env (some pv) "list index out of range" fx hfx
            | some p =>
              simp only [innerPipeline, ho, he, hd, hg, hdec, hh] at hfx
              rcases List.mem_cons.mp hfx with rfl | hfx
              · rfl
              rcases List.mem_cons.mp hfx with rfl | hfx
              · rfl
              rcases List.mem_cons.mp hfx with rfl | hfx
              · rfl
              rcases List.mem_cons.mp hfx with rfl | hfx
              · rfl
              · simp at hfx

theorem caption_trace_cases (env : Env) (req : Request) :
    (caption_image env req).2 = [] ∨
    ∃ fp rest, (caption_image env req).2 = Effect.saveFile fp :: rest ∧
      ∀ fx ∈ rest, traceOk fx = true := by
  cases hf : List.lookup "image" req.files with
  | none =>
    left
    simp [caption_image, hf]
  | some file =>
    by_cases hn : file.filename = ""
    · left
      simp [caption_image, hf, hn]
    · cases hs : env.save (os_path_join UPLOAD_FOLDER (secure_filename file.filename)) with
      | error e =>
        left
        simp [caption_image, hf, hn, hs]
      | ok u =>
        cases hm : env.modelLoaded with
        | false =>
          refine Or.inr ⟨os_path_join UPLOAD_FOLDER (secure_filename file.filename), [], ?_, by simp⟩
          simp [caption_image, hf, hn, hs, hm]
        | true =>
          refine Or.inr ⟨os_path_join UPLOAD_FOLDER (secure_filename file.filename),
            (innerPipeline env (os_path_join UPLOAD_FOLDER (secure_filename file.filename))).2,
            ?_, innerPipeline_trace_ok env _⟩
          simp [caption_image, hf, hn, hs, hm]


theorem traceOk_no_load {fx : Effect} (h : traceOk fx = true) : isLoadCall fx = false := by
  cases fx <;> first | rfl | (exfalso; exact Bool.false_ne_true h)

theorem traceOk_extract_one {fx : Effect} (h : traceOk fx = true) : extractBatchOne fx = true := by
  cases fx <;> first | rfl | exact h

theorem foldl_applyFx_id {l : List Effect} (h : ∀ fx ∈ l, traceOk fx = true) :
    ∀ fs : List String, l.foldl applyFx fs = fs := by
  induction l with
  | nil => intro fs; rfl
  | cons fx rest ih =>
    intro fs
    have h1 : traceOk fx = true := h fx (List.mem_cons_self _ _)
    have h2 : applyFx fs fx = fs := by
      cases fx <;> first | rfl | (exfalso; exact Bool.false_ne_true h1)
    rw [List.foldl_cons, h2]
    exact ih (fun g hg => h g (List.mem_cons_of_mem _ hg)) fs

end CaptionApp

namespace CaptionApp

theorem caption_no_load_filter (env : Env) (req : Request) :
    (caption_image env req).2.filter isLoadCall = [] := by
  rw [List.filter_eq_nil_iff]
  intro fx hfx
  rcases caption_trace_cases env req with h | ⟨fp, rest, h, hrest⟩
  · rw [h] at hfx
    simp at hfx
  · rw [h] at hfx
    rcases List.mem_cons.mp hfx with rfl | hfx
    · simp [isLoadCall]
    · simp [traceOk_no_load (hrest fx hfx)]

/-- C6: the model, feature extractor and tokenizer are each loaded at
most once, at process startup (module level, before any request is
served); the `/caption` handler performs no `from_pretrained` call on
any execution path — its trace never contains a load effect, it only
reads the `model` singleton. -/
theorem model_loaded_once (le : LoadEnv) (env : Env) (req : Request) :
    (startup le).2.count (Effect.loadCall "model") ≤ 1 ∧
    (startup le).2.count (Effect.loadCall "feature_extractor") ≤ 1 ∧
    (startup le).2.count (Effect.loadCall "tokenizer") ≤ 1 ∧
    (caption_image env req).2.filter isLoadCall = [] := by
  refine ⟨?_, ?_, ?_, caption_no_load_filter env req⟩ <;>
    rcases le with ⟨ma, r1, r2, r3, r4⟩ <;>
    cases ma <;> cases r1 <;> cases r2 <;> cases r3 <;> cases r4 <;>
    simp only [startup] <;> decide

theorem fallbackBlock_200 (env : Env) (pv : Option Nat) (e : String)
    (h : (fallbackBlock env pv e).1.status = 200) :
    ∃ ids preds p, env.batchDecode ids = .ok preds ∧ preds.head? = some p ∧
      (fallbackBlock env pv e).1.body = [("caption", pyStrip p)] := by
  cases pv with
  | none => simp [fallbackBlock] at h
  | some t =>
    cases hg : env.generate t fallbackParams with
    | error e2 => simp [fallbackBlock, hg] at h
    | ok ids =>
      cases hd : env.batchDecode ids with
      | error e2 => simp [fallbackBlock, hg, hd] at h
      | ok preds =>
        cases hh : preds.head? with
        | none => simp [fallbackBlock, hg, hd, hh] at h
        | some p => exact ⟨ids, preds, p, hd, hh, by simp [fallbackBlock, hg, hd, hh]⟩

theorem innerPipeline_200 (env : Env) (path : String)
    (h : (innerPipeline env path).1.status = 200) :
    ∃ ids preds p, env.batchDecode ids = .ok preds ∧ preds.head? = some p ∧
      (innerPipeline env path).1.body = [("caption", pyStrip p)] := by
  cases ho : env.openImage path with
  | error e =>
    have h2 : (fallbackBlock env none e).1.status = 200 := by
      simpa [innerPipeline, ho] using h
    obtain ⟨ids, preds, p, hd, hh, hb⟩ := fallbackBlock_200 env none e h2
    refine ⟨ids, preds, p, hd, hh, ?_⟩
    simpa [innerPipeline, ho] using hb
  | ok img0 =>
    cases he : env.extract [if img0.mode = "RGBA" then env.convertRGB img0 else img0] with
    | error e =>
      have h2 : (fallbackBlock env none e).1.status = 200 := by
        simpa [innerPipeline, ho, he] using h
      obtain ⟨ids, preds, p, hd, hh, hb⟩ := fallbackBlock_200 env none e h2
      refine ⟨ids, preds, p, hd, hh, ?_⟩
      simpa [innerPipeline, ho, he] using hb
    | ok pv0 =>
      cases hdev : env.toDevice pv0 with
      | error e =>
        have h2 : (fallbackBlock env (some pv0) e).1.status = 200 := by
          simpa [innerPipeline, ho, he, hdev] using h
        obtain ⟨ids, preds, p, hd, hh, hb⟩ := fallbackBlock_200 env (some pv0) e h2
        refine ⟨ids, preds, p, hd, hh, ?_⟩
        simpa [innerPipeline, ho, he, hdev] using hb
      | ok pv =>
        cases hg : env.generate pv primaryParams with
        | error e =>
          have h2 : (fallbackBlock env (some pv) e).1.status = 200 := by
            simpa [innerPipeline, ho, he, hdev, hg] using h
          obtain ⟨ids, preds, p, hd, hh, hb⟩ := fallbackBlock_200 env (some pv) e h2
          refine ⟨ids, preds, p, hd, hh, ?_⟩
          simpa [innerPipeline, ho, he, hdev, hg] using hb
        | ok ids =>
          cases hdec : env.batchDecode ids with
          | error e =>
            have h2 : (fallbackBlock env (some pv) e).1.status = 200 := by
              simpa [innerPipeline, ho, he, hdev, hg, hdec] using h
            obtain ⟨ids2, preds, p, hd, hh, hb⟩ := fallbackBlock_200 env (some pv) e h2
            refine ⟨ids2, preds, p, hd, hh, ?_⟩
            simpa [innerPipeline, ho, he, hdev, hg, hdec] using hb
          | ok preds =>
            cases hh : preds.head? with
            | none =>
              have h2 : (fallbackBlock env (some pv) "list index out of range").1.status = 200 := by
                simpa [innerPipeline, ho, he, hdev, hg, hdec, hh] using h
              obtain ⟨ids2, preds2, p, hd, hh2, hb⟩ :=
                fallbackBlock_200 env (some pv) "list index out of range" h2
              refine ⟨ids2, preds2, p, hd, hh2, ?_⟩
              simpa [innerPipeline, ho, he, hdev, hg, hdec, hh] using hb
            | some p =>
              refine ⟨ids, preds, p, hdec, hh, ?_⟩
              simp [innerPipeline, ho, he, hdev, hg, hdec, hh]

/-- C7: no batching: on every execution of the `/caption` handler, every
feature-extractor invocation in the trace is on a batch of exactly one
image (the handler passes the singleton list `[image]`), and whenever
the pipeline answers 200 its caption is exactly the first decoded
sequence `preds[0]` (stripped) of a `batch_decode` result. -/
theorem no_batching (env : Env) (req : Request) :
    (caption_image env req).2.all extractBatchOne = true ∧
    (∀ path, (innerPipeline env path).1.status = 200 →
      ∃ ids preds p, env.batchDecode ids = .ok preds ∧ preds.head? = some p ∧
        (innerPipeline env path).1.body = [("caption", pyStrip p)]) := by
  constructor
  · rw [List.all_eq_true]
    intro fx hfx
    rcases caption_trace_cases env req with h | ⟨fp, rest, h, hrest⟩
    · rw [h] at hfx
      simp at hfx
    · rw [h] at hfx
      rcases List.mem_cons.mp hfx with rfl | hfx
      · rfl
      · exact traceOk_extract_one (hrest fx hfx)
  · intro path h
    exact innerPipeline_200 env path h

/-- Witness for `no_batching` on the all-succeeding environment: the
upload of `cat.jpg` is processed with singleton batches and the 200
caption is the first decoded sequence. -/
theorem no_batching_witness :
    (caption_image envOkAll reqCat).2.all extractBatchOne = true ∧
    (∃ ids preds p, envOkAll.batchDecode ids = .ok preds ∧ preds.head? = some p ∧
      (innerPipeline envOkAll "uploads/cat.jpg").1.body = [("caption", pyStrip p)]) :=
  ⟨(no_batching envOkAll reqCat).1,
   (no_batching envOkAll reqCat).2 "uploads/cat.jpg" rfl⟩

end CaptionApp

namespace CaptionApp

/-- The fallback try-block (app.py lines 155-170) fails: the sampling
`generate`, the `batch_decode`, or the `preds[0]` indexing raises. -/
def fallbackAttemptFails (env : Env) (pv : Nat) : Prop :=
  match env.generate pv fallbackParams with
  | .error _ => True
  | .ok ids =>
    match env.batchDecode ids with
    | .error _ => True
    | .ok preds => preds.head? = none

/-- C1: when a POST to `/caption` reaches the generation step (open,
extraction and device move succeeded) and the primary greedy preset
raises `e`, exactly one generation call with the sampling fallback
preset appears in the trace; if the fallback block succeeds its decoded,
stripped caption is returned with status 200; the response is a 500
exactly when the fallback block also raises, and then its error message
is `Error generating caption: ` followed by the primary exception text
`e` (hence contains `e`). -/
theorem fallback_strategy (env : Env) (path : String) (img0 : PyImage) (pv0 pv : Nat)
    (e : String)
    (ho : env.openImage path = .ok img0)
    (he : env.extract [if img0.mode = "RGBA" then env.convertRGB img0 else img0] = .ok pv0)
    (hd : env.toDevice pv0 = .ok pv)
    (hg : env.generate pv primaryParams = .error e) :
    (innerPipeline env path).2.count (Effect.genCall fallbackParams) = 1 ∧
    (∀ ids preds p, env.generate pv fallbackParams = .ok ids →
      env.batchDecode ids = .ok preds → preds.head? = some p →
      (innerPipeline env path).1 = ⟨200, [("caption", pyStrip p)]⟩) ∧
    ((innerPipeline env path).1.status = 500 ↔ fallbackAttemptFails env pv) ∧
    ((innerPipeline env path).1.status = 500 →
      (innerPipeline env path).1 = ⟨500, [("error", genErrorMsg e)]⟩) := by
  have hfp : fallbackParams ≠ primaryParams := by decide
  cases hgf : env.generate pv fallbackParams with
  | error e2 =>
    refine ⟨?_, ?_, ?_, ?_⟩
    · simp [innerPipeline, ho, he, hd, hg, fallbackBlock, hgf, List.count_cons, hfp]
    · intro ids preds p hok
      simp [hgf] at hok
    · simp [innerPipeline, ho, he, hd, hg, fallbackBlock, hgf, fallbackAttemptFails]
    · intro h5
      simp [innerPipeline, ho, he, hd, hg, fallbackBlock, hgf]
  | ok ids =>
    cases hdec : env.batchDecode ids with
    | error e2 =>
      refine ⟨?_, ?_, ?_, ?_⟩
      · simp [innerPipeline, ho, he, hd, hg, fallbackBlock, hgf, hdec, List.count_cons, hfp]
      · intro ids2 preds p hok hdec2
        cases hok
        simp [hdec] at hdec2
      · simp [innerPipeline, ho, he, hd, hg, fallbackBlock, hgf, hdec, fallbackAttemptFails]
      · intro h5
        simp [innerPipeline, ho, he, hd, hg, fallbackBlock, hgf, hdec]
    | ok preds =>
      cases hh : preds.head? with
      | none =>
        refine ⟨?_, ?_, ?_, ?_⟩
        · simp [innerPipeline, ho, he, hd, hg, fallbackBlock, hgf, hdec, hh,
            List.count_cons, hfp]
        · intro ids2 preds2 p hok hdec2 hp2
          cases hok
          rw [hdec] at hdec2
          cases hdec2
          simp [hh] at hp2
        · simp [innerPipeline, ho, he, hd, hg, fallbackBlock, hgf, hdec, hh,
            fallbackAttemptFails]
        · intro h5
          simp [innerPipeline, ho, he, hd, hg, fallbackBlock, hgf, hdec, hh]
      | some p =>
        refine ⟨?_, ?_, ?_, ?_⟩
        · simp [innerPipeline, ho, he, hd, hg, fallbackBlock, hgf, hdec, hh,
            List.count_cons, hfp]
        · intro ids2 preds2 p2 hok hdec2 hp2
          cases hok
          rw [hdec] at hdec2
          cases hdec2
          rw [hh] at hp2
          cases hp2
          simp [innerPipeline, ho, he, hd, hg, fallbackBlock, hgf, hdec, hh]
        · simp [innerPipeline, ho, he, hd, hg, fallbackBlock, hgf, hdec, hh,
            fallbackAttemptFails]
        · intro h5
          simp [innerPipeline, ho, he, hd, hg, fallbackBlock, hgf, hdec, hh] at h5
  
/-- An environment in which the primary (greedy) generate raises and the
sampling fallback succeeds. -/
def envPrimaryFails : Env where
  modelLoaded := true
  save := fun _ => .ok ()
  openImage := fun _ => .ok ⟨"RGBA", 3⟩
  convertRGB := fun i => ⟨"RGB", i.ident⟩
  extract := fun _ => .ok 7
  toDevice := fun n => .ok n
  generate := fun _ p =>
    match p.num_beams with
    | some _ => .error "beam search failed"
    | none => .ok [[9]]
  batchDecode := fun _ => .ok [" riding a bike "]

/-- Witness for `fallback_strategy`: on `envPrimaryFails` the pipeline
makes exactly one fallback generation call and returns the fallback
caption with status 200. -/
theorem fallback_strategy_witness :
    (innerPipeline envPrimaryFails "uploads/cat.jpg").2.count (Effect.genCall fallbackParams) = 1 ∧
    (innerPipeline envPrimaryFails "uploads/cat.jpg").1 = ⟨200, [("caption", "riding a bike")]⟩ := by
  have h := fallback_strategy envPrimaryFails "uploads/cat.jpg" ⟨"RGBA", 3⟩ 7 7
    "beam search failed" rfl rfl rfl rfl
  refine ⟨h.1, ?_⟩
  rw [h.2.1 [[9]] [" riding a bike "] " riding a bike " rfl rfl rfl]
  rfl

end CaptionApp

namespace CaptionApp

/-- C4 counterexample: the claim that the only route registered in the
application is the image-caption endpoint is false: two routes are
registered, `GET /` and `POST /caption`. -/
theorem single_route_counterexample :
    registeredRoutes.length = 2 ∧ ¬ registeredRoutes.map Route.path = ["/caption"] := by
  decide

/-- C4 (amended): the application registers exactly two routes: the
health-check `GET /` (whose handler `index` returns 200 with
`status: Server is running`) and `POST /caption`; `/caption` is the only
route handled by the captioning view `caption_image`. -/
theorem routes_exactly_two :
    registeredRoutes.map Route.path = ["/", "/caption"] ∧
    (registeredRoutes.filter (fun r => r.handlerName == "caption_image")).map Route.path =
      ["/caption"] ∧
    index = ⟨200, [("status", "Server is running")]⟩ := by
  decide

/-- C5 counterexample: on a concrete request that saves `cat.jpg`, the
file `uploads/cat.jpg` still remains on disk after the response is
produced — the remaining-files set is not empty, refuting the claim
that the saved image does not persist beyond the request. -/
theorem upload_removed_counterexample :
    remainingFiles (caption_image envNoModel reqCat).2 = ["uploads/cat.jpg"] ∧
    remainingFiles (caption_image envNoModel reqCat).2 ≠ [] := by
  have he : remainingFiles (caption_image envNoModel reqCat).2 = ["uploads/cat.jpg"] := by
    decide
  refine ⟨he, ?_⟩
  rw [he]
  intro h
  cases h

/-- C5 (amended): the upload persists: on every request that saves the
file (an `image` part with a non-empty filename, successful save), the
final filesystem state contains exactly `uploads/<secure_filename>` and
the handler performs no deletion, so the saved image remains as durable
state after the response. -/
theorem upload_persists (env : Env) (req : Request) (f : FilePart)
    (hf : List.lookup "image" req.files = some f)
    (hn : f.filename ≠ "")
    (hsave : env.save (os_path_join UPLOAD_FOLDER (secure_filename f.filename)) = .ok ()) :
    remainingFiles (caption_image env req).2 =
      [os_path_join UPLOAD_FOLDER (secure_filename f.filename)] ∧
    (∀ q, Effect.deleteFile q ∉ (caption_image env req).2) := by
  cases hm : env.modelLoaded with
  | false =>
    have htrace : (caption_image env req).2 =
        [Effect.saveFile (os_path_join UPLOAD_FOLDER (secure_filename f.filename))] := by
      simp [caption_image, hf, hn, hsave, hm]
    rw [htrace]
    constructor
    · rfl
    · intro q hq
      simp at hq
  | true =>
    have htrace : (caption_image env req).2 =
        Effect.saveFile (os_path_join UPLOAD_FOLDER (secure_filename f.filename)) ::
          (innerPipeline env (os_path_join UPLOAD_FOLDER (secure_filename f.filename))).2 := by
      simp [caption_image, hf, hn, hsave, hm]
    rw [htrace]
    constructor
    · show List.foldl applyFx _ _ = _
      rw [List.foldl_cons]
      exact foldl_applyFx_id
        (innerPipeline_trace_ok env (os_path_join UPLOAD_FOLDER (secure_filename f.filename))) _
    · intro q hq
      rcases List.mem_cons.mp hq with h1 | h1
      · cases h1
      · have := innerPipeline_trace_ok env
          (os_path_join UPLOAD_FOLDER (secure_filename f.filename)) _ h1
        simp [traceOk] at this

/-- Witness for `upload_persists` at the concrete no-model run that
saves `cat.jpg`. -/
theorem upload_persists_witness :
    remainingFiles (caption_image envNoModel reqCat).2 = ["uploads/cat.jpg"] ∧
    (∀ q, Effect.deleteFile q ∉ (caption_image envNoModel reqCat).2) := by
  have h := upload_persists envNoModel reqCat ⟨"cat.jpg", "bytes"⟩ rfl (by decide) rfl
  refine ⟨?_, h.2⟩
  rw [h.1]
  rfl

/-- C9: `MAX_CONTENT_LENGTH` is exactly 16 MiB; a request body strictly
larger is rejected with 413 before the handler runs (the effect trace of
a rejected dispatch is empty), and a body at or below the limit is never
rejected for size: dispatch runs the handler unchanged. -/
theorem max_content_length_spec :
    MAX_CONTENT_LENGTH = 16 * 1024 * 1024 ∧
    (∀ n, contentLengthRejected n = true ↔ 16 * 1024 * 1024 < n) ∧
    (∀ n env req, contentLengthRejected n = true →
      dispatchCaption n env req = (⟨413, [("error", "Request Entity Too Large")]⟩, [])) ∧
    (∀ n env req, contentLengthRejected n = false →
      dispatchCaption n env req = caption_image env req) := by
  refine ⟨rfl, ?_, ?_, ?_⟩
  · intro n
    simp [contentLengthRejected, MAX_CONTENT_LENGTH]
  · intro n env req h
    simp [dispatchCaption, h]
  · intro n env req h
    simp [dispatchCaption, h]

/-- Witness for `max_content_length_spec`: one byte over the limit is
rejected, the limit itself is dispatched to the handler. -/
theorem max_content_length_witness :
    dispatchCaption (16 * 1024 * 1024 + 1) envOkAll reqCat =
      (⟨413, [("error", "Request Entity Too Large")]⟩, []) ∧
    dispatchCaption (16 * 1024 * 1024) envOkAll reqCat = caption_image envOkAll reqCat :=
  ⟨max_content_length_spec.2.2.1 (16 * 1024 * 1024 + 1) envOkAll reqCat (by decide),
   max_content_length_spec.2.2.2 (16 * 1024 * 1024) envOkAll reqCat (by decide)⟩

end CaptionApp
